import Mathlib

/-!
Verification of BlackboxPlayer, file src/BlackboxPlayer/Utilities/BridgingHeader.h.

The repository consists of a single Objective-C bridging header. We embed the
file as the exact list of its source lines, give a faithful model of the C
preprocessor fragment the file uses (line comments, block comments on directive
lines, blank lines, and the directives ifndef / define / undef / import /
include / endif, with the once-per-translation-unit semantics of import), and
prove the specified properties of the artifact against that model.

Header resolution is modelled by an environment mapping a header reference to
the list of declarations that header contributes, or none when the header is
absent from the build environment; inclusion fails (the translation unit does
not compile) exactly when a header that is actually reached fails to resolve.
-/

/-- The exact lines of src/BlackboxPlayer/Utilities/BridgingHeader.h. -/
def bridgingHeaderLines : List String :=
  [ "//"
  , "//  BridgingHeader.h"
  , "//  BlackboxPlayer"
  , "//"
  , "//  Objective-C Bridging Header for FFmpeg and other C libraries"
  , "//"
  , ""
  , "#ifndef BridgingHeader_h"
  , "#define BridgingHeader_h"
  , ""
  , "// FFmpeg headers"
  , "#import <libavcodec/avcodec.h>"
  , "#import <libavformat/avformat.h>"
  , "#import <libavutil/avutil.h>"
  , "#import <libavutil/imgutils.h>"
  , "#import <libswscale/swscale.h>"
  , "#import <libswresample/swresample.h>"
  , ""
  , "#endif /* BridgingHeader_h */" ]

/-- A preprocessor directive, as it appears on one line of the header. -/
inductive Directive where
  | ifndefD (n : String)
  | defineD (n : String)
  | undefD (n : String)
  | importD (h : String)
  | includeD (h : String)
  | endifD
  deriving DecidableEq

/-- Classification of one source line of the header. -/
inductive LineKind where
  | blank
  | comment
  | directive (d : Directive)
  | text (s : String)
  deriving DecidableEq

/-- Whitespace characters of the preprocessor. -/
def isWS (c : Char) : Bool := c == ' ' || c == '\t' || c == '\r' || c == '\n'

/-- Drop leading whitespace from a character list. -/
def dropWS : List Char → List Char
  | [] => []
  | c :: cs => if isWS c then dropWS cs else c :: cs

/-- Drop leading and trailing whitespace from a character list. -/
def trimChars (cs : List Char) : List Char :=
  (dropWS (dropWS cs.reverse).reverse)

/-- Whether the first list starts with the second. -/
def startsWithL : List Char → List Char → Bool
  | _, [] => true
  | [], _ :: _ => false
  | c :: cs, p :: ps => c == p && startsWithL cs ps

/-- The part of a character list before the first occurrence of a pattern. -/
def takeUntilSub (pat : List Char) : List Char → List Char
  | [] => []
  | c :: cs => if startsWithL (c :: cs) pat then [] else c :: takeUntilSub pat cs

/-- The part of a character list before the first occurrence of a character. -/
def takeUntilChar (x : Char) : List Char → List Char
  | [] => []
  | c :: cs => if c == x then [] else c :: takeUntilChar x cs

/-- Remove a trailing line or block comment from a directive line. -/
def stripComments (cs : List Char) : List Char :=
  trimChars (takeUntilSub "//".data (takeUntilSub "/*".data cs))

/-- The header name inside angle brackets of an import or include argument. -/
def headerRefL (s : List Char) : List Char :=
  match s with
  | [] => []
  | c :: cs => if c == '<' then takeUntilChar '>' cs else s

/-- Classify one source line: blank, comment, preprocessor directive, or
ordinary program text. -/
def parseLine (line : String) : LineKind :=
  let t := trimChars line.data
  if t = [] then .blank
  else if startsWithL t "//".data then .comment
  else if startsWithL t "/*".data then .comment
  else
    let b := stripComments t
    if startsWithL b "#ifndef".data then
      .directive (.ifndefD ⟨trimChars (b.drop 7)⟩)
    else if startsWithL b "#define".data then
      .directive (.defineD ⟨trimChars (b.drop 7)⟩)
    else if startsWithL b "#undef".data then
      .directive (.undefD ⟨trimChars (b.drop 6)⟩)
    else if startsWithL b "#import".data then
      .directive (.importD ⟨headerRefL (trimChars (b.drop 7))⟩)
    else if startsWithL b "#include".data then
      .directive (.includeD ⟨headerRefL (trimChars (b.drop 8))⟩)
    else if startsWithL b "#endif".data then .directive .endifD
    else .text ⟨b⟩

/-- The six FFmpeg headers imported by the bridging header, in source order. -/
def ffmpegHeaders : List String :=
  [ "libavcodec/avcodec.h"
  , "libavformat/avformat.h"
  , "libavutil/avutil.h"
  , "libavutil/imgutils.h"
  , "libswscale/swscale.h"
  , "libswresample/swresample.h" ]

/-- The headers named by import directives of a file, in order. -/
def importsOf (lines : List String) : List String :=
  lines.filterMap fun l =>
    match parseLine l with
    | .directive (.importD h) => some h
    | _ => none

/-- The headers named by include directives of a file, in order. -/
def includesOf (lines : List String) : List String :=
  lines.filterMap fun l =>
    match parseLine l with
    | .directive (.includeD h) => some h
    | _ => none

/-- The macro names defined by define directives of a file, in order. -/
def definesOf (lines : List String) : List String :=
  lines.filterMap fun l =>
    match parseLine l with
    | .directive (.defineD n) => some n
    | _ => none

/-- The macro names removed by undef directives of a file, in order. -/
def undefsOf (lines : List String) : List String :=
  lines.filterMap fun l =>
    match parseLine l with
    | .directive (.undefD n) => some n
    | _ => none

/-- All preprocessor directives of a file, in order. -/
def directivesOf (lines : List String) : List Directive :=
  lines.filterMap fun l =>
    match parseLine l with
    | .directive d => some d
    | _ => none

/-- The lines of a file that are ordinary program text: neither blank, nor a
comment, nor a preprocessor directive. These are the only lines that could
carry declarations, statements, control flow or error handling of the file
itself. -/
def ownDecls (lines : List String) : List String :=
  lines.filterMap fun l =>
    match parseLine l with
    | .text s => some s
    | _ => none

/-- Preprocessor state: the set of defined macro names, the headers already
processed by import (which processes a file at most once per translation
unit), and the stack of enclosing conditional results. -/
structure CppState where
  macros : List String
  imported : List String
  conds : List Bool
  deriving DecidableEq

/-- A region is active when every enclosing conditional evaluated to true. -/
def CppState.active (st : CppState) : Bool := st.conds.all fun b => b

/-- The preprocessor state at the start of a translation unit. -/
def initState : CppState := ⟨[], [], []⟩

/-- A build environment: resolves a header reference to the declarations that
header contributes, or none when the header is not installed. -/
def Env : Type := String → Option (List String)

/-- Effect of one classified line on the preprocessor state, together with the
declarations it emits; none models a compile failure (an unresolved header or
an unmatched endif). -/
def stepLine (env : Env) (st : CppState) (l : LineKind) :
    Option (CppState × List String) :=
  match l with
  | .blank => some (st, [])
  | .comment => some (st, [])
  | .text s => if st.active then some (st, [s]) else some (st, [])
  | .directive (.ifndefD n) =>
      some ({ st with conds := (decide (n ∉ st.macros)) :: st.conds }, [])
  | .directive (.defineD n) =>
      if st.active then some ({ st with macros := n :: st.macros }, [])
      else some (st, [])
  | .directive (.undefD n) =>
      if st.active then
        some ({ st with macros := st.macros.filter fun m => decide (m ≠ n) }, [])
      else some (st, [])
  | .directive (.importD h) =>
      if st.active then
        if h ∈ st.imported then some (st, [])
        else
          match env h with
          | some ds => some ({ st with imported := h :: st.imported }, ds)
          | none => none
      else some (st, [])
  | .directive (.includeD h) =>
      if st.active then
        match env h with
        | some ds => some (st, ds)
        | none => none
      else some (st, [])
  | .directive .endifD =>
      match st.conds with
      | [] => none
      | _ :: rest => some ({ st with conds := rest }, [])

/-- Run the preprocessor over a list of classified lines, threading the state
and concatenating the emitted declarations. -/
def processLines (env : Env) : CppState → List LineKind →
    Option (CppState × List String)
  | st, [] => some (st, [])
  | st, l :: ls =>
    match stepLine env st l with
    | none => none
    | some (st1, ds1) =>
      match processLines env st1 ls with
      | none => none
      | some (st2, ds2) => some (st2, ds1 ++ ds2)

/-- Include a file into a translation unit in state st: classify its lines,
run the preprocessor, and require the conditional stack to be balanced. -/
def includeFile (env : Env) (st : CppState) (lines : List String) :
    Option (CppState × List String) :=
  match processLines env st (lines.map parseLine) with
  | none => none
  | some (st1, ds) => if st1.conds = st.conds then some (st1, ds) else none

/-- Resolve a list of headers in order, concatenating their declarations;
none as soon as one header is missing. -/
def resolveAll (env : Env) : List String → Option (List String)
  | [] => some []
  | h :: t =>
    match env h with
    | none => none
    | some ds =>
      match resolveAll env t with
      | none => none
      | some rest => some (ds ++ rest)

/-- The headers already imported after one inclusion of the bridging header,
most recent first. -/
def importedFinal : List String :=
  [ "libswresample/swresample.h"
  , "libswscale/swscale.h"
  , "libavutil/imgutils.h"
  , "libavutil/avutil.h"
  , "libavformat/avformat.h"
  , "libavcodec/avcodec.h" ]

/-- The preprocessor state after one successful inclusion of the bridging
header: the include guard is defined, the six FFmpeg headers are recorded as
imported, and the conditional stack is balanced. -/
def finalState : CppState := ⟨["BridgingHeader_h"], importedFinal, []⟩

/-- One inclusion step of the bridging header on an accumulated result. -/
def includeStep (env : Env) (acc : Option (CppState × List String)) :
    Option (CppState × List String) :=
  match acc with
  | none => none
  | some (st, ds) =>
    match includeFile env st bridgingHeaderLines with
    | none => none
    | some (st1, ds1) => some (st1, ds ++ ds1)

/-- Include the bridging header n times in a row in one translation unit,
starting from the initial state. -/
def includeTimes (env : Env) : Nat → Option (CppState × List String)
  | 0 => some (initState, [])
  | n + 1 => includeStep env (includeTimes env n)

/-- An environment in which every header resolves, contributing a single
declaration named after the header; used to instantiate theorems at a
concrete build environment. -/
def envAll : Env := fun h => some [h]

/-- Classification of the nineteen lines of the bridging header. -/
theorem parse_bridgingHeader :
    bridgingHeaderLines.map parseLine =
      [ .comment, .comment, .comment, .comment, .comment, .comment, .blank
      , .directive (.ifndefD "BridgingHeader_h")
      , .directive (.defineD "BridgingHeader_h")
      , .blank, .comment
      , .directive (.importD "libavcodec/avcodec.h")
      , .directive (.importD "libavformat/avformat.h")
      , .directive (.importD "libavutil/avutil.h")
      , .directive (.importD "libavutil/imgutils.h")
      , .directive (.importD "libswscale/swscale.h")
      , .directive (.importD "libswresample/swresample.h")
      , .blank, .directive .endifD ] := by
  decide

/-- Including the bridging header from the initial state reduces to resolving
the six FFmpeg headers in order: on success the state has the guard defined
and the six headers recorded as imported, and the emitted declarations are the
concatenation of the declarations of the six headers; on a missing header the
inclusion fails. -/
theorem includeFile_resolveAll (env : Env) :
    includeFile env initState bridgingHeaderLines =
      Option.map (fun ds => (finalState, ds)) (resolveAll env ffmpegHeaders) := by
  unfold includeFile
  rw [parse_bridgingHeader]
  cases h1 : env "libavcodec/avcodec.h" <;>
  cases h2 : env "libavformat/avformat.h" <;>
  cases h3 : env "libavutil/avutil.h" <;>
  cases h4 : env "libavutil/imgutils.h" <;>
  cases h5 : env "libswscale/swscale.h" <;>
  cases h6 : env "libswresample/swresample.h" <;>
  simp [processLines, stepLine, resolveAll, ffmpegHeaders, CppState.active,
    initState, finalState, importedFinal, h1, h2, h3, h4, h5, h6]

/-- Resolution of a list of headers succeeds exactly when every header of the
list resolves. -/
theorem resolveAll_isSome (env : Env) (hs : List String) :
    (resolveAll env hs).isSome = hs.all fun h => (env h).isSome := by
  induction hs with
  | nil => rfl
  | cons h t ih =>
    cases hh : env h with
    | none => simp [resolveAll, hh]
    | some ds =>
      cases ht : resolveAll env t with
      | none =>
        rw [ht] at ih
        simp [resolveAll, hh, ht, List.all_cons, ih.symm]
      | some rest =>
        rw [ht] at ih
        simp [resolveAll, hh, ht, List.all_cons, ih.symm]

/-- Every declaration produced by resolving a list of headers comes from one
of those headers. -/
theorem resolveAll_mem (env : Env) (hs : List String) (ds : List String)
    (hres : resolveAll env hs = some ds) (d : String) (hd : d ∈ ds) :
    ∃ h ∈ hs, ∃ l, env h = some l ∧ d ∈ l := by
  induction hs generalizing ds with
  | nil =>
    simp [resolveAll] at hres
    subst hres
    simp at hd
  | cons h t ih =>
    cases hh : env h with
    | none => simp [resolveAll, hh] at hres
    | some l =>
      cases ht : resolveAll env t with
      | none => simp [resolveAll, hh, ht] at hres
      | some rest =>
        simp [resolveAll, hh, ht] at hres
        subst hres
        rcases List.mem_append.mp hd with hl | hr
        · exact ⟨h, by simp, l, hh, hl⟩
        · rcases ih rest ht hr with ⟨h2, hm, l2, he, hdl⟩
          exact ⟨h2, by simp [hm], l2, he, hdl⟩

/-- On a successful inclusion from the initial state, the resulting
preprocessor state is the final state. -/
theorem includeFile_success_state (env : Env) (st : CppState) (ds : List String)
    (h : includeFile env initState bridgingHeaderLines = some (st, ds)) :
    st = finalState := by
  rw [includeFile_resolveAll] at h
  cases hr : resolveAll env ffmpegHeaders with
  | none => rw [hr] at h; simp at h
  | some l => rw [hr] at h; simp at h; exact h.1.symm

/-- On a successful inclusion from the initial state, the emitted declarations
are exactly the resolution of the six FFmpeg headers. -/
theorem includeFile_success_decls (env : Env) (st : CppState) (ds : List String)
    (h : includeFile env initState bridgingHeaderLines = some (st, ds)) :
    resolveAll env ffmpegHeaders = some ds := by
  rw [includeFile_resolveAll] at h
  cases hr : resolveAll env ffmpegHeaders with
  | none => rw [hr] at h; simp at h
  | some l => rw [hr] at h; simp at h; rw [h.2]

/-- Once the include guard is defined and the conditional stack is balanced,
a further inclusion of the bridging header is a no-op: it emits nothing,
resolves nothing, and leaves the state unchanged. -/
theorem includeFile_guarded (env : Env) (m i : List String)
    (hm : "BridgingHeader_h" ∈ m) :
    includeFile env ⟨m, i, []⟩ bridgingHeaderLines = some (⟨m, i, []⟩, []) := by
  unfold includeFile
  rw [parse_bridgingHeader]
  simp [processLines, stepLine, CppState.active, hm]

/-- One inclusion step on a successful accumulated result, by definition. -/
theorem includeStep_some (env : Env) (st : CppState) (ds : List String) :
    includeStep env (some (st, ds)) =
      match includeFile env st bridgingHeaderLines with
      | none => none
      | some (st1, ds1) => some (st1, ds ++ ds1) := rfl

/-- One inclusion step on a failed accumulated result, by definition. -/
theorem includeStep_none (env : Env) : includeStep env none = none := rfl

/-- Whether a source line is ordinary program text. -/
def isTextLine (l : String) : Bool :=
  match parseLine l with
  | .text _ => true
  | _ => false

/-- Claim C1: the file imports exactly six FFmpeg library headers, in the
listed source order, and imports no other header and uses no include
directive. -/
theorem c1_imports_exactly_six :
    importsOf bridgingHeaderLines = ffmpegHeaders ∧
      includesOf bridgingHeaderLines = [] := by
  decide

/-- Claim C2: the file contains zero original logic: no line of it carries
program text of its own (no data structures, no function definitions, no
control flow, no error handling), and every declaration made visible by
including it originates in one of the imported FFmpeg headers. -/
theorem c2_zero_original_logic (env : Env) (st : CppState) (ds : List String)
    (d : String)
    (hinc : includeFile env initState bridgingHeaderLines = some (st, ds))
    (hd : d ∈ ds) :
    ownDecls bridgingHeaderLines = [] ∧
      ∃ h ∈ ffmpegHeaders, ∃ l, env h = some l ∧ d ∈ l := by
  refine ⟨by decide, ?_⟩
  exact resolveAll_mem env ffmpegHeaders ds
    (includeFile_success_decls env st ds hinc) d hd

/-- Witness for claim C2 at a concrete resolving environment. -/
theorem c2_zero_original_logic_witness :
    ownDecls bridgingHeaderLines = [] ∧
      ∃ h ∈ ffmpegHeaders, ∃ l, envAll h = some l ∧
        "libavcodec/avcodec.h" ∈ l :=
  c2_zero_original_logic envAll finalState ffmpegHeaders
    "libavcodec/avcodec.h" (by decide) (by decide)

/-- Claim C3: the bridging header compiles exactly when each of its six
imported FFmpeg headers resolves in the build environment. -/
theorem c3_compiles_iff_resolves (env : Env) :
    (includeFile env initState bridgingHeaderLines).isSome =
      (ffmpegHeaders.all fun h => (env h).isSome) := by
  rw [includeFile_resolveAll, ← resolveAll_isSome]
  cases hr : resolveAll env ffmpegHeaders <;> simp

/-- Claim C4: no data entities are defined, owned, or mutated by the file:
on a successful inclusion the state records exactly the include guard and the
six imported headers, the file carries no program text of its own, and every
declaration it makes reachable comes from one of the FFmpeg headers. -/
theorem c4_no_own_entities (env : Env) (st : CppState) (ds : List String)
    (hinc : includeFile env initState bridgingHeaderLines = some (st, ds)) :
    st = finalState ∧ ownDecls bridgingHeaderLines = [] ∧
      ∀ d ∈ ds, ∃ h ∈ ffmpegHeaders, ∃ l, env h = some l ∧ d ∈ l := by
  refine ⟨includeFile_success_state env st ds hinc, by decide, ?_⟩
  intro d hd
  exact resolveAll_mem env ffmpegHeaders ds
    (includeFile_success_decls env st ds hinc) d hd

/-- Witness for claim C4 at a concrete resolving environment. -/
theorem c4_no_own_entities_witness :
    finalState = finalState ∧ ownDecls bridgingHeaderLines = [] ∧
      ∀ d ∈ ffmpegHeaders, ∃ h ∈ ffmpegHeaders, ∃ l, envAll h = some l ∧
        d ∈ l :=
  c4_no_own_entities envAll finalState ffmpegHeaders (by decide)

/-- Claim C5: the only external interface of the file is the set of six
header imports: its directives are exactly the include guard around the six
FFmpeg import directives, and it carries no program text that could define a
command-line interface, a wire protocol, a file format, or persisted state. -/
theorem c5_interface_is_imports :
    directivesOf bridgingHeaderLines =
      [ .ifndefD "BridgingHeader_h", .defineD "BridgingHeader_h"
      , .importD "libavcodec/avcodec.h", .importD "libavformat/avformat.h"
      , .importD "libavutil/avutil.h", .importD "libavutil/imgutils.h"
      , .importD "libswscale/swscale.h", .importD "libswresample/swresample.h"
      , .endifD ] ∧
      ownDecls bridgingHeaderLines = [] := by
  decide

/-- Claim C6: the error semantics of FFmpeg pass through unmodified: when the
six FFmpeg headers resolve to their declaration lists, including the bridging
header emits exactly those declarations, verbatim and in order, with nothing
wrapped, redefined, or altered and no error path of its own added. -/
theorem c6_error_semantics_unmodified (env : Env)
    (d1 d2 d3 d4 d5 d6 : List String)
    (e1 : env "libavcodec/avcodec.h" = some d1)
    (e2 : env "libavformat/avformat.h" = some d2)
    (e3 : env "libavutil/avutil.h" = some d3)
    (e4 : env "libavutil/imgutils.h" = some d4)
    (e5 : env "libswscale/swscale.h" = some d5)
    (e6 : env "libswresample/swresample.h" = some d6) :
    includeFile env initState bridgingHeaderLines =
      some (finalState, d1 ++ (d2 ++ (d3 ++ (d4 ++ (d5 ++ d6))))) := by
  rw [includeFile_resolveAll]
  simp [resolveAll, ffmpegHeaders, e1, e2, e3, e4, e5, e6]

/-- Witness for claim C6 at a concrete resolving environment. -/
theorem c6_error_semantics_unmodified_witness :
    includeFile envAll initState bridgingHeaderLines =
      some (finalState,
        ["libavcodec/avcodec.h"] ++ (["libavformat/avformat.h"] ++
          (["libavutil/avutil.h"] ++ (["libavutil/imgutils.h"] ++
            (["libswscale/swscale.h"] ++ ["libswresample/swresample.h"]))))) :=
  c6_error_semantics_unmodified envAll _ _ _ _ _ _ rfl rfl rfl rfl rfl rfl

/-- Claim C7: the header introduces no concurrency construct of any kind:
every one of its lines is blank, a comment, or a preprocessor directive, so
it declares no threads, locks, queues, or shared mutable state of its own. -/
theorem c7_no_concurrency_constructs :
    (bridgingHeaderLines.all fun l => !(isTextLine l)) = true ∧
      ownDecls bridgingHeaderLines = [] := by
  decide

/-- Claim C8: inclusion is idempotent: thanks to the include guard
BridgingHeader_h and the once-per-translation-unit semantics of import,
including the bridging header any positive number of times in one translation
unit yields exactly the same declarations and the same final state as
including it once. -/
theorem c8_inclusion_idempotent (env : Env) (n : Nat) :
    includeTimes env (n + 1) = includeTimes env 1 := by
  induction n with
  | zero => rfl
  | succ n ih =>
    have step : includeTimes env (n + 1 + 1) =
        includeStep env (includeTimes env (n + 1)) := rfl
    rw [step, ih]
    have one : includeTimes env 1 = includeStep env (some (initState, [])) := rfl
    rw [one, includeStep_some]
    cases hres : includeFile env initState bridgingHeaderLines with
    | none => simp [includeStep_none]
    | some p =>
      obtain ⟨st1, ds1⟩ := p
      have hst : st1 = finalState := includeFile_success_state env st1 ds1 hres
      subst hst
      have hguard : includeFile env finalState bridgingHeaderLines =
          some (finalState, []) :=
        includeFile_guarded env ["BridgingHeader_h"] importedFinal (by decide)
      simp [includeStep_some, hguard]

/-- Claim C9: the only macro the file itself defines is its include guard:
its define directives name exactly BridgingHeader_h, it has no undef
directive, and on a successful inclusion the macro environment has gained
exactly the guard and nothing else. -/
theorem c9_only_guard_macro (env : Env) (st : CppState) (ds : List String)
    (hinc : includeFile env initState bridgingHeaderLines = some (st, ds)) :
    definesOf bridgingHeaderLines = ["BridgingHeader_h"] ∧
      undefsOf bridgingHeaderLines = [] ∧
      st.macros = ["BridgingHeader_h"] := by
  refine ⟨by decide, by decide, ?_⟩
  rw [includeFile_success_state env st ds hinc]
  rfl

/-- Witness for claim C9 at a concrete resolving environment. -/
theorem c9_only_guard_macro_witness :
    definesOf bridgingHeaderLines = ["BridgingHeader_h"] ∧
      undefsOf bridgingHeaderLines = [] ∧
      finalState.macros = ["BridgingHeader_h"] :=
  c9_only_guard_macro envAll finalState ffmpegHeaders (by decide)
